import Mathlib

/-!
Verification development for the Chinawok data-poblator
(`src/DataPoblator.py`): a shallow embedding of the batch write engine,
the retry discipline, the purge routine, the JSON numeric re-encoding and
the per-table pipeline, together with theorems settling the specified
properties.
-/

set_option autoImplicit false

namespace DataPoblator

/-! ### Batching (`batch_write_items`, lines 252-259)

`batches = [items[i:i + batch_size] for i in range(0, total_items, batch_size)]`
with `batch_size = 25`.  `batchesOfAux` is fuel-indexed structural recursion;
the fuel `items.length` always suffices because each step consumes at least
one element of a non-empty list. -/

def batchesOfAux {α : Type} : Nat → List α → List (List α)
  | 0, _ => []
  | _, [] => []
  | n + 1, x :: xs => ((x :: xs).take 25) :: batchesOfAux n ((x :: xs).drop 25)

def batchesOf {α : Type} (items : List α) : List (List α) :=
  batchesOfAux items.length items

/-! ### One attempt of a batch (`process_batch_with_retry`, lines 261-307)

The store's behaviour on one bulk-write attempt, as the code's control flow
distinguishes it:

* `complete results` : the `with table.batch_writer()` block runs to the end;
  `results` holds, in order, one Boolean per item of the batch (`true` when
  `put_item` returned and `local_success` was incremented, `false` when a
  non-throttling `ClientError` or other exception was caught and
  `local_errors` was incremented).
* `throttle prefixResults` : a `ProvisionedThroughputExceededException` is
  raised (re-raised from `put_item` or raised by the writer's flush) after the
  item outcomes in `prefixResults` were already counted; the remaining items
  of the batch are not reached on this attempt.
* `bulkFail prefixResults` : a non-throttling `ClientError` escapes the
  `with` block after the outcomes in `prefixResults` were counted.
* `crash` : a non-`ClientError` exception escapes the `with` block; it is not
  caught inside `process_batch_with_retry` and surfaces at `future.result()`.
-/

inductive AttemptBehavior : Type where
  | complete (results : List Bool)
  | throttle (prefixResults : List Bool)
  | bulkFail (prefixResults : List Bool)
  | crash

/-- Value of `local_success` after consuming the item outcomes `l`. -/
def countOk (l : List Bool) : Nat := l.count true

/-- Value of `local_errors` after consuming the item outcomes `l`. -/
def countErr (l : List Bool) : Nat := l.count false

/-- Well-formedness of a store behaviour against a batch of length `L`:
a completed attempt reports one outcome per item, an aborted attempt reports
outcomes for a prefix of the batch. -/
def WfAttempt (L : Nat) : AttemptBehavior → Prop
  | .complete rs => rs.length = L
  | .throttle p => p.length ≤ L
  | .bulkFail p => p.length ≤ L
  | .crash => True

/-- The retry loop `for attempt in range(max_retries)` of
`process_batch_with_retry`, entered at attempt index `a` with `r` loop
iterations remaining (`r = max_retries - a`); `behav i` is the store's
behaviour on attempt `i`, `L` is `len(batch)`.  Counters start at `0` on
entry, matching the reset at lines 298-299 (and the initialisation at lines
263-264).  `none` models a non-`ClientError` exception escaping the function.

* completed attempt: `return local_success, local_errors`;
* non-throttling `ClientError`: `local_errors += len(batch); return 0, local_errors`;
* throttling with retries remaining (`attempt < max_retries - 1`): sleep,
  reset the counters, `continue`;
* throttling on the last iteration: the loop ends and the function returns
  the partial counters of this final attempt (lines 306-307). -/
def processFrom (behav : Nat → AttemptBehavior) (L : Nat) : Nat → Nat → Option (Nat × Nat)
  | _, 0 => some (0, 0)
  | a, r + 1 =>
    match behav a with
    | .complete rs => some (countOk rs, countErr rs)
    | .bulkFail p => some (0, countErr p + L)
    | .crash => none
    | .throttle p =>
      if r = 0 then some (countOk p, countErr p)
      else processFrom behav L (a + 1) r

/-- Embedding of `process_batch_with_retry(batch, max_retries)` for a batch of length `L`:
the retry loop starting at attempt `0`. -/
def process_batch_with_retry (behav : Nat → AttemptBehavior) (L maxRetries : Nat) :
    Option (Nat × Nat) :=
  processFrom behav L 0 maxRetries

/-- Number of bulk-write attempts (iterations of the retry loop that reach
the `with table.batch_writer()` block) performed from attempt `a` with `r`
iterations remaining. -/
def attemptsFrom (behav : Nat → AttemptBehavior) : Nat → Nat → Nat
  | _, 0 => 0
  | a, r + 1 =>
    match behav a with
    | .throttle _ => if r = 0 then 1 else 1 + attemptsFrom behav (a + 1) r
    | _ => 1

/-- Total attempts of `process_batch_with_retry` with retry ceiling `maxRetries`. -/
def attemptsOf (behav : Nat → AttemptBehavior) (maxRetries : Nat) : Nat :=
  attemptsFrom behav 0 maxRetries

/-- The successive `time.sleep` durations (line 295-296,
`wait_time = (2 ** attempt) + random_module.uniform(0, 1)`) performed from
attempt `a` with `r` iterations remaining; `jit i` is the jitter drawn on
attempt `i`. -/
def delaysFrom (behav : Nat → AttemptBehavior) (jit : Nat → ℚ) : Nat → Nat → List ℚ
  | _, 0 => []
  | a, r + 1 =>
    match behav a with
    | .throttle _ =>
      if r = 0 then []
      else (2 ^ a + jit a) :: delaysFrom behav jit (a + 1) r
    | _ => []

/-- All backoff delays of one `process_batch_with_retry` call (attempt
indices start at 0). -/
def retryDelays (behav : Nat → AttemptBehavior) (jit : Nat → ℚ) (maxRetries : Nat) : List ℚ :=
  delaysFrom behav jit 0 maxRetries

/-- Holds (`true`) when the retry loop, entered at attempt `a` with `r` iterations
remaining, ends in a normally completed bulk-write attempt (no abandonment
after exhausted retries, no bulk-level failure, no escaping exception). -/
def completesFrom (behav : Nat → AttemptBehavior) : Nat → Nat → Bool
  | _, 0 => false
  | a, r + 1 =>
    match behav a with
    | .complete _ => true
    | .throttle _ => if r = 0 then false else completesFrom behav (a + 1) r
    | _ => false

/-- Contribution of one batch to the tally, as aggregated in the
`as_completed` loop (lines 316-331): the pair returned by
`process_batch_with_retry` (retry ceiling 5, the call site's default), or —
when an exception escapes the worker and surfaces at `future.result()` —
`error_count += len(futures[future])` with no success contribution. -/
def batchResult {α : Type} (behav : Nat → AttemptBehavior) (b : List α) : Nat × Nat :=
  match processFrom behav b.length 0 5 with
  | some se => se
  | none => (0, b.length)

/-- Embedding of `batch_write_items(table, items, table_name)` (lines 246-337).

`behav j i` is the store's behaviour on attempt `i` of batch `j`.
`dispatch` models the `try` at line 309: `none` means the thread-pool
dispatch and collection run to completion, in which case every batch's
outcome is merged into the shared counters (summation is order-independent,
so the arbitrary `as_completed` order is irrelevant); `some done` means the
parallel machinery itself fails after exactly the batches `j` with
`done j = true` were merged, reaching the handler at lines 333-335 which
returns `success_count, total_items - success_count`.

When `items` is empty, `batches` is empty, so
`ThreadPoolExecutor(max_workers=min(10, 0))` raises `ValueError`; the
handler at line 333 catches it and returns
`success_count, total_items - success_count`, i.e. `(0, 0 - 0)`. -/
def batch_write_items {α : Type} (items : List α) (behav : Nat → Nat → AttemptBehavior)
    (dispatch : Option (Nat → Bool)) : Nat × Nat :=
  let total := items.length
  let batches := batchesOf items
  if batches.length = 0 then
    (0, total - 0)
  else
    match dispatch with
    | none =>
      let rs := batches.enum.map (fun jb => batchResult (behav jb.1) jb.2)
      ((rs.map Prod.fst).sum, (rs.map Prod.snd).sum)
    | some done =>
      let merged := batches.enum.filter (fun jb => done jb.1)
      let s := (merged.map (fun jb => (batchResult (behav jb.1) jb.2).1)).sum
      (s, total - s)

/-! ### Purge under the replace policy (`delete_all_items_from_table`, lines 200-243)

An item is an association list of string-valued fields; the scan behaviour of
the store is the finite sequence of pages its successive `table.scan` calls
return (the `while 'LastEvaluatedKey' in response` loop runs exactly until
the last of those pages), or the exception the first failing call raises. -/

abbrev StoreItem := List (String × String)

abbrev StoreKey := List (String × String)

/-- Field access on a scanned item, Python's subscript lookup (which raises
`KeyError` when the field is absent). -/
def lookupField (it : StoreItem) (field : String) : Option String :=
  match it with
  | [] => none
  | (k, v) :: rest => if k = field then some v else lookupField rest field

/-- Key construction of lines 225-227: a singleton mapping of the partition
key name to the item's partition-key value, extended with the sort key when
one is declared; `none` when a required field is absent (a `KeyError`). -/
def keyOf (pkName : String) (skName : Option String) (it : StoreItem) : Option StoreKey :=
  match lookupField it pkName with
  | none => none
  | some v =>
    match skName with
    | none => some [(pkName, v)]
    | some sk =>
      match lookupField it sk with
      | none => none
      | some w => some [(pkName, v), (sk, w)]

inductive ScanOutcome : Type where
  | pages (ps : List (List StoreItem))
  | resourceNotFound
  | otherClientError
  | otherException

/-- The keys handed to `batch.delete_item`, in item order; `none` as soon as
one item lacks a required key field (a `KeyError`, caught by the generic
handler at line 241). -/
def buildKeys (pkName : String) (skName : Option String) : List StoreItem → Option (List StoreKey)
  | [] => some []
  | it :: tl =>
    match keyOf pkName skName it with
    | none => none
    | some k =>
      match buildKeys pkName skName tl with
      | none => none
      | some ks => some (k :: ks)

/-- Embedding of `delete_all_items_from_table(table_name, pk_name, sk_name)`:
returns the
Boolean result together with the keys handed to `batch.delete_item`, in
order.  The scanned items are the concatenation of all pages (lines
208-214); an empty item list returns `True` with no deletes (lines
216-218); otherwise every discovered item is deleted by its key (lines
223-228).  A `ResourceNotFoundException` returns `True` (table treated as
already empty, lines 235-237); any other `ClientError` or exception returns
`False` (lines 238-243), as does a `KeyError` while building a key. -/
def delete_all_items_from_table (scan : ScanOutcome) (pkName : String)
    (skName : Option String) : Bool × List StoreKey :=
  match scan with
  | .pages ps =>
    let items := ps.flatten
    if items.isEmpty then (true, [])
    else
      match buildKeys pkName skName items with
      | some keys => (true, keys)
      | none => (false, [])
  | .resourceNotFound => (true, [])
  | .otherClientError => (false, [])
  | .otherException => (false, [])

/-! ### The per-table pipeline (`table_exists` lines 137-146,
`populate_table` lines 364-435)

Each collaborator below the pipeline is modelled by the outcome of its call,
distinguishing exactly the exception classes the code distinguishes.  A
`PyResult` is what a call to `populate_table` does: return a Boolean, or let
an exception escape to the caller. -/

inductive PyResult : Type where
  | ret (b : Bool)
  | raised (what : String)
deriving DecidableEq

/-- Holds (`true`) when the call returned a Boolean (rather than letting an
exception escape). -/
def isRet : PyResult → Bool
  | .ret _ => true
  | .raised _ => false

/-- Outcome of the `describe_table` call inside `table_exists`:
it either succeeds or raises a `ClientError` with some error code. -/
inductive DescribeOutcome : Type where
  | ok
  | clientError (code : String)
deriving DecidableEq

/-- Embedding of `table_exists(table_name)` (lines 137-146): `True` on success, `False`
when the `ClientError` code is `ResourceNotFoundException`, and otherwise
the `ClientError` is re-raised. -/
def table_exists (d : DescribeOutcome) : PyResult :=
  match d with
  | .ok => .ret true
  | .clientError code =>
    if code = "ResourceNotFoundException" then .ret false
    else .raised code

/-- Outcome of `create_table` (lines 149-179): `created`/`failedCreate` are
its `True`/`False` returns (a `ClientError` anywhere in its `try` is caught
and returns `False`); `raisedCreate` is a non-`ClientError` exception (e.g.
from `wait_until_exists`) escaping it. -/
inductive CreateOutcome : Type where
  | created
  | failedCreate
  | raisedCreate
deriving DecidableEq

/-- Outcome of `load_json_file` (lines 182-197): `loaded v` is a decoded
value (`convert_float_to_decimal` applied), `failedLoad` covers the caught
`FileNotFoundError` and `JSONDecodeError` (both return `None`), and
`raisedOpen` is any other exception from opening or reading the file, which
escapes.  The decoded value is either not a list, or a list of `n` records. -/
inductive LoadOutcome : Type where
  | failedLoad
  | raisedOpen
  | notAList
  | listOf (n : Nat)
deriving DecidableEq

inductive GlobalAction : Type where
  | append
  | replace
deriving DecidableEq

/-- Environment of one `populate_table` call: the outcome of each collaborator
invocation it can reach. `scanCheck` is the `table.scan(Limit=1)` count probe
(lines 387-390), `none` when that probe raises (caught at line 397);
`deleteOk` is the Boolean from `delete_all_items_from_table`; `batch` the
counts from `batch_write_items`; `batchRaise` an exception inside the `try`
at lines 418-426 (caught at lines 428-435). -/
structure PopulateEnv : Type where
  describe : DescribeOutcome
  create : CreateOutcome
  scanCheck : Option Nat
  deleteOk : Bool
  load : LoadOutcome
  batch : Nat × Nat
  batchRaise : Bool

/-- Lines 402-435 of `populate_table`: load the file, validate the shape,
write the batches, return `error_count == 0`. -/
def loadAndWrite (env : PopulateEnv) : PyResult :=
  match env.load with
  | .raisedOpen => .raised "IOError"
  | .failedLoad => .ret false
  | .notAList => .ret false
  | .listOf 0 => .ret true
  | .listOf (_ + 1) =>
    if env.batchRaise then .ret false
    else .ret (env.batch.2 == 0)

/-- Embedding of `populate_table(dynamodb, filename, table_config, global_action)`
(lines 364-435).  The `table_exists` call at line 375 is outside every
`try`, so an exception it raises escapes; likewise a non-`ClientError`
exception inside `create_table`.  Under `replace` on an existing table the
scan probe's exceptions are caught (proceed with a warning) and a `False`
from the purge returns `False` (lines 384-398). -/
def populate_table (env : PopulateEnv) (globalAction : Option GlobalAction) : PyResult :=
  match table_exists env.describe with
  | .raised code => .raised code
  | .ret false =>
    match env.create with
    | .raisedCreate => .raised "CreateError"
    | .failedCreate => .ret false
    | .created => loadAndWrite env
  | .ret true =>
    match globalAction with
    | some .replace =>
      match env.scanCheck with
      | none => loadAndWrite env
      | some n =>
        if 0 < n then
          if env.deleteOk then loadAndWrite env else .ret false
        else loadAndWrite env
    | _ => loadAndWrite env

/-! ### Numeric re-encoding (`convert_float_to_decimal`, lines 87-98)

A decoded JSON value: strings, integers, floats, booleans, `None`, lists and
dictionaries (`json.load` never yields `Decimal`, but the constructor exists
because the conversion produces it).  A binary float `x` is identified by the
decimal string `str(x)` produces, so `Decimal(str(x))` is `decimal s` for the
same string s. -/

mutual
inductive JsonVal : Type where
  | str (s : String)
  | intV (n : Int)
  | floatV (s : String)
  | decimal (s : String)
  | boolV (b : Bool)
  | null
  | arr (l : JsonArr)
  | obj (o : JsonObj)
inductive JsonArr : Type where
  | nil
  | cons (v : JsonVal) (tl : JsonArr)
inductive JsonObj : Type where
  | nil
  | cons (k : String) (v : JsonVal) (tl : JsonObj)
end

mutual
/-- Embedding of `convert_float_to_decimal(obj)`: recurse into lists and into the values
of dictionaries (keys untouched), replace a float `x` by `Decimal(str(x))`,
return everything else unchanged (the isinstance chain at lines 91-98; note
`bool` is not a subclass of `float` in Python, so booleans hit the `else`). -/
def convert_float_to_decimal : JsonVal → JsonVal
  | .arr l => .arr (convertArr l)
  | .obj o => .obj (convertObj o)
  | .floatV s => .decimal s
  | v => v
def convertArr : JsonArr → JsonArr
  | .nil => .nil
  | .cons v tl => .cons (convert_float_to_decimal v) (convertArr tl)
def convertObj : JsonObj → JsonObj
  | .nil => .nil
  | .cons k v tl => .cons k (convert_float_to_decimal v) (convertObj tl)
end

mutual
/-- No `float` node anywhere in the value. -/
def noFloat : JsonVal → Bool
  | .floatV _ => false
  | .arr l => noFloatArr l
  | .obj o => noFloatObj o
  | _ => true
def noFloatArr : JsonArr → Bool
  | .nil => true
  | .cons v tl => noFloat v && noFloatArr tl
def noFloatObj : JsonObj → Bool
  | .nil => true
  | .cons _ v tl => noFloat v && noFloatObj tl
end

mutual
/-- No `Decimal` node anywhere in the value (true of everything `json.load`
returns). -/
def noDecimal : JsonVal → Bool
  | .decimal _ => false
  | .arr l => noDecimalArr l
  | .obj o => noDecimalObj o
  | _ => true
def noDecimalArr : JsonArr → Bool
  | .nil => true
  | .cons v tl => noDecimal v && noDecimalArr tl
def noDecimalObj : JsonObj → Bool
  | .nil => true
  | .cons _ v tl => noDecimal v && noDecimalObj tl
end

mutual
/-- The inverse re-encoding: turn every `Decimal` node back into the float it
came from, leaving everything else (strings, integers, booleans, nulls,
dictionary keys, nesting) untouched.  Recovering the original value through
this map shows the conversion changed nothing but the float nodes. -/
def forgetDecimal : JsonVal → JsonVal
  | .decimal s => .floatV s
  | .arr l => .arr (forgetDecimalArr l)
  | .obj o => .obj (forgetDecimalObj o)
  | v => v
def forgetDecimalArr : JsonArr → JsonArr
  | .nil => .nil
  | .cons v tl => .cons (forgetDecimal v) (forgetDecimalArr tl)
def forgetDecimalObj : JsonObj → JsonObj
  | .nil => .nil
  | .cons k v tl => .cons k (forgetDecimal v) (forgetDecimalObj tl)
end

/-! ### Lemmas about the batching step -/

lemma batchesOfAux_succ_cons {α : Type} (n : Nat) (x : α) (xs : List α) :
    batchesOfAux (n + 1) (x :: xs) =
      ((x :: xs).take 25) :: batchesOfAux n ((x :: xs).drop 25) := rfl

lemma batchesOfAux_eq {α : Type} :
    ∀ (n : Nat) (l : List α), l.length ≤ n → batchesOfAux n l = batchesOf l
  | 0, [], _ => rfl
  | 0, _ :: _, h => by simp at h
  | _ + 1, [], _ => rfl
  | n + 1, x :: xs, h => by
    have hn : xs.length ≤ n := by simpa using h
    have hd : ((x :: xs).drop 25).length ≤ n := by
      simp only [List.length_drop, List.length_cons]; omega
    have hd2 : ((x :: xs).drop 25).length ≤ xs.length := by
      simp only [List.length_drop, List.length_cons]; omega
    rw [batchesOfAux_succ_cons]
    show _ = batchesOfAux (xs.length + 1) (x :: xs)
    rw [batchesOfAux_succ_cons]
    rw [batchesOfAux_eq n _ hd, batchesOfAux_eq xs.length _ hd2]

lemma batchesOf_nil {α : Type} : batchesOf ([] : List α) = [] := rfl

lemma batchesOf_cons {α : Type} (x : α) (xs : List α) :
    batchesOf (x :: xs) = ((x :: xs).take 25) :: batchesOf ((x :: xs).drop 25) := by
  show batchesOfAux (xs.length + 1) (x :: xs) = _
  rw [batchesOfAux_succ_cons, batchesOfAux_eq]
  simp only [List.length_drop, List.length_cons]
  omega

lemma flatten_batchesOf {α : Type} : ∀ (l : List α), (batchesOf l).flatten = l
  | [] => rfl
  | x :: xs => by
    rw [batchesOf_cons, List.flatten_cons, flatten_batchesOf ((x :: xs).drop 25)]
    exact List.take_append_drop 25 (x :: xs)
termination_by l => l.length
decreasing_by simp only [List.length_drop, List.length_cons]; omega

lemma length_batchesOf {α : Type} : ∀ (l : List α), (batchesOf l).length = (l.length + 24) / 25
  | [] => by show 0 = (0 + 24) / 25; omega
  | x :: xs => by
    rw [batchesOf_cons, List.length_cons, length_batchesOf ((x :: xs).drop 25)]
    simp only [List.length_drop, List.length_cons]
    omega
termination_by l => l.length
decreasing_by simp only [List.length_drop, List.length_cons]; omega

lemma batchesOf_dropLast_all {α : Type} :
    ∀ (l : List α), ((batchesOf l).dropLast.all fun b => b.length == 25) = true
  | [] => rfl
  | x :: xs => by
    have ih := batchesOf_dropLast_all ((x :: xs).drop 25)
    rw [batchesOf_cons]
    rcases hd : (x :: xs).drop 25 with - | ⟨y, ys⟩
    · simp [batchesOf_nil]
    · have hlen : 25 < (x :: xs).length := by
        rcases Nat.lt_or_ge 25 (x :: xs).length with hgt | hle
        · exact hgt
        · exfalso
          rw [List.drop_eq_nil_of_le hle] at hd
          simp at hd
      have hb : batchesOf (y :: ys) ≠ [] := by
        rw [batchesOf_cons]
        simp
      rw [hd] at ih
      rw [List.dropLast_cons_of_ne_nil hb, List.all_cons, ih]
      have htk : ((x :: xs).take 25).length = 25 := by
        rw [List.length_take]
        omega
      simp only [List.length_cons] at hlen
      simp [htk]
      omega
termination_by l => l.length
decreasing_by simp only [List.length_drop, List.length_cons]; omega

lemma batchesOf_eq_nil_iff {α : Type} (l : List α) : batchesOf l = [] ↔ l = [] := by
  rcases l with - | ⟨x, xs⟩
  · simp [batchesOf_nil]
  · rw [batchesOf_cons]
    simp

lemma batchesOf_small {α : Type} (l : List α) (h0 : l ≠ []) (h25 : l.length ≤ 25) :
    batchesOf l = [l] := by
  rcases l with - | ⟨x, xs⟩
  · exact absurd rfl h0
  · rw [batchesOf_cons]
    have hdrop : (x :: xs).drop 25 = [] := List.drop_eq_nil_of_le h25
    rw [hdrop, batchesOf_nil, List.take_of_length_le h25]

/-! ### Lemmas about the per-attempt counters -/

lemma countOk_add_countErr (l : List Bool) : countOk l + countErr l = l.length := by
  induction l with
  | nil => rfl
  | cons b tl ih =>
    simp only [countOk, countErr] at ih ⊢
    rw [List.count_cons, List.count_cons, List.length_cons]
    cases b <;> simp <;> omega

lemma countOk_le_length (l : List Bool) : countOk l ≤ l.length := by
  simpa [countOk] using List.count_le_length true l

/-! ### Lemmas about the retry loop -/

lemma processFrom_complete (behav : Nat → AttemptBehavior) (L : Nat)
    (hwf : ∀ i rs, behav i = .complete rs → rs.length = L) :
    ∀ (r a : Nat), completesFrom behav a r = true →
      ∃ s e, processFrom behav L a r = some (s, e) ∧ s + e = L := by
  intro r
  induction r with
  | zero => intro a h; simp [completesFrom] at h
  | succ n ih =>
    intro a h
    cases hba : behav a with
    | complete rs =>
      refine ⟨countOk rs, countErr rs, by simp [processFrom, hba], ?_⟩
      rw [countOk_add_countErr]
      exact hwf a rs hba
    | throttle p =>
      by_cases hn : n = 0
      · subst hn
        simp [completesFrom, hba] at h
      · have h2 : completesFrom behav (a + 1) n = true := by
          simpa [completesFrom, hba, hn] using h
        obtain ⟨s, e, hse, hsum⟩ := ih (a + 1) h2
        exact ⟨s, e, by simp [processFrom, hba, hn, hse], hsum⟩
    | bulkFail p => simp [completesFrom, hba] at h
    | crash => simp [completesFrom, hba] at h

lemma processFrom_fst_le (behav : Nat → AttemptBehavior) (L : Nat)
    (hwf : ∀ i, WfAttempt L (behav i)) :
    ∀ (r a s e : Nat), processFrom behav L a r = some (s, e) → s ≤ L := by
  intro r
  induction r with
  | zero =>
    intro a s e h
    simp only [processFrom, Option.some.injEq, Prod.mk.injEq] at h
    omega
  | succ n ih =>
    intro a s e h
    cases hba : behav a with
    | complete rs =>
      have hl : rs.length = L := by
        have hw := hwf a
        rw [hba] at hw
        exact hw
      simp [processFrom, hba] at h
      have := countOk_le_length rs
      omega
    | throttle p =>
      have hl : p.length ≤ L := by
        have hw := hwf a
        rw [hba] at hw
        exact hw
      by_cases hn : n = 0
      · subst hn
        simp [processFrom, hba] at h
        have := countOk_le_length p
        omega
      · have h2 : processFrom behav L (a + 1) n = some (s, e) := by
          simpa [processFrom, hba, hn] using h
        exact ih (a + 1) s e h2
    | bulkFail p =>
      simp only [processFrom, hba, Option.some.injEq, Prod.mk.injEq] at h
      omega
    | crash => simp [processFrom, hba] at h

lemma batchResult_fst_le {α : Type} (behav : Nat → AttemptBehavior) (b : List α)
    (hwf : ∀ i, WfAttempt b.length (behav i)) :
    (batchResult behav b).1 ≤ b.length := by
  unfold batchResult
  cases hp : processFrom behav b.length 0 5 with
  | none => simp
  | some se =>
    rcases se with ⟨s, e⟩
    simpa using processFrom_fst_le behav b.length hwf 5 0 s e hp

lemma batchResult_sum_eq {α : Type} (behav : Nat → AttemptBehavior) (b : List α)
    (hco : completesFrom behav 0 5 = true)
    (hwf : ∀ i rs, behav i = .complete rs → rs.length = b.length) :
    (batchResult behav b).1 + (batchResult behav b).2 = b.length := by
  obtain ⟨s, e, hse, hsum⟩ := processFrom_complete behav b.length hwf 5 0 hco
  unfold batchResult
  rw [hse]
  exact hsum

lemma throttle_all_attempts (behav : Nat → AttemptBehavior) (p : Nat → List Bool) (L : Nat)
    (hb : ∀ i, behav i = .throttle (p i)) :
    ∀ (r a : Nat), 1 ≤ r →
      attemptsFrom behav a r = r ∧
      processFrom behav L a r =
        some (countOk (p (a + r - 1)), countErr (p (a + r - 1))) := by
  intro r
  induction r with
  | zero => intro a h; exact absurd h (by omega)
  | succ n ih =>
    intro a _
    by_cases hn : n = 0
    · subst hn
      refine ⟨by simp [attemptsFrom, hb a], ?_⟩
      simp [processFrom, hb a]
    · obtain ⟨h1, h2⟩ := ih (a + 1) (by omega)
      have hidx : a + 1 + n - 1 = a + (n + 1) - 1 := by omega
      rw [hidx] at h2
      refine ⟨?_, by simp [processFrom, hb a, hn, h2]⟩
      simp [attemptsFrom, hb a, hn, h1]
      omega

/-! ### Lemmas about the tally aggregation -/

lemma sum_map_add {β : Type} (l : List β) (f g : β → Nat) :
    (l.map f).sum + (l.map g).sum = (l.map fun x => f x + g x).sum := by
  induction l with
  | nil => rfl
  | cons x xs ih =>
    simp only [List.map_cons, List.sum_cons]
    omega

lemma sum_filter_le {β : Type} (l : List β) (q : β → Bool) (f : β → Nat) :
    ((l.filter q).map f).sum ≤ (l.map f).sum := by
  induction l with
  | nil => simp
  | cons x xs ih =>
    by_cases hq : q x
    · simp only [List.filter_cons, hq, if_true, List.map_cons, List.sum_cons]
      omega
    · simp only [List.filter_cons, hq, Bool.false_eq_true, if_false, List.map_cons,
        List.sum_cons]
      omega

lemma sum_batch_lengths {α : Type} (items : List α) :
    ((batchesOf items).enum.map (fun jb => jb.2.length)).sum = items.length := by
  have h1 : ((batchesOf items).enum.map (fun jb => jb.2.length))
      = ((batchesOf items).enum.map Prod.snd).map List.length := by
    rw [List.map_map]
    rfl
  rw [h1, List.enum_map_snd, ← List.length_flatten, flatten_batchesOf]

/-! ### Lemmas about the backoff delays -/

lemma waitTime_le_next (jit : Nat → ℚ) (hj : ∀ i, 0 ≤ jit i ∧ jit i < 1) (a : Nat) :
    2 ^ a + jit a ≤ 2 ^ (a + 1) + jit (a + 1) := by
  have h1 : (1 : ℚ) ≤ 2 ^ a := by
    calc (1 : ℚ) = 2 ^ 0 := by norm_num
    _ ≤ 2 ^ a := by
      apply pow_le_pow_right₀ (by norm_num) (Nat.zero_le a)
  have h2 : (2 : ℚ) ^ (a + 1) = 2 ^ a + 2 ^ a := by ring
  have h3 := (hj a).2
  have h4 := (hj (a + 1)).1
  linarith

lemma delaysFrom_chain (behav : Nat → AttemptBehavior) (jit : Nat → ℚ)
    (hj : ∀ i, 0 ≤ jit i ∧ jit i < 1) :
    ∀ (r a : Nat),
      List.Chain' (fun x y : ℚ => x ≤ y) (delaysFrom behav jit a r) ∧
      ∀ d : ℚ, (delaysFrom behav jit a r).head? = some d → d = 2 ^ a + jit a := by
  intro r
  induction r with
  | zero => intro a; exact ⟨List.chain'_nil, by simp [delaysFrom]⟩
  | succ n ih =>
    intro a
    cases hba : behav a with
    | throttle p =>
      by_cases hn : n = 0
      · subst hn
        exact ⟨by simp [delaysFrom, hba], by simp [delaysFrom, hba]⟩
      · obtain ⟨hc, hh⟩ := ih (a + 1)
        have hshow : delaysFrom behav jit a (n + 1)
            = (2 ^ a + jit a) :: delaysFrom behav jit (a + 1) n := by
          simp [delaysFrom, hba, hn]
        constructor
        · rw [hshow]
          refine List.chain'_cons'.mpr ⟨?_, hc⟩
          intro y hy
          rw [hh y hy]
          exact waitTime_le_next jit hj a
        · intro d hd
          rw [hshow] at hd
          simp at hd
          exact hd.symm
    | complete rs => exact ⟨by simp [delaysFrom, hba], by simp [delaysFrom, hba]⟩
    | bulkFail p => exact ⟨by simp [delaysFrom, hba], by simp [delaysFrom, hba]⟩
    | crash => exact ⟨by simp [delaysFrom, hba], by simp [delaysFrom, hba]⟩

/-! ### Lemmas about the purge -/

lemma buildKeys_eq (pkName : String) (skName : Option String) :
    ∀ (items : List StoreItem),
      (∀ it ∈ items, (keyOf pkName skName it).isSome = true) →
      buildKeys pkName skName items
        = some (items.filterMap (keyOf pkName skName)) := by
  intro items
  induction items with
  | nil => intro _; rfl
  | cons it tl ih =>
    intro h
    have h1 : (keyOf pkName skName it).isSome = true := h it (by simp)
    obtain ⟨k, hk⟩ := Option.isSome_iff_exists.mp h1
    have h2 := ih (fun x hx => h x (by simp [hx]))
    simp [buildKeys, hk, h2, List.filterMap_cons]

/-! ### Lemmas about the numeric re-encoding -/

mutual
theorem convertOkVal : ∀ (v : JsonVal), noDecimal v = true →
    noFloat (convert_float_to_decimal v) = true ∧
      forgetDecimal (convert_float_to_decimal v) = v
  | .str _, _ => ⟨rfl, rfl⟩
  | .intV _, _ => ⟨rfl, rfl⟩
  | .floatV _, _ => ⟨rfl, rfl⟩
  | .decimal _, h => by simp [noDecimal] at h
  | .boolV _, _ => ⟨rfl, rfl⟩
  | .null, _ => ⟨rfl, rfl⟩
  | .arr l, h => by
    have hl := convertOkArr l (by simpa [noDecimal] using h)
    simp [convert_float_to_decimal, noFloat, forgetDecimal, hl.1, hl.2]
  | .obj o, h => by
    have ho := convertOkObj o (by simpa [noDecimal] using h)
    simp [convert_float_to_decimal, noFloat, forgetDecimal, ho.1, ho.2]
theorem convertOkArr : ∀ (l : JsonArr), noDecimalArr l = true →
    noFloatArr (convertArr l) = true ∧ forgetDecimalArr (convertArr l) = l
  | .nil, _ => ⟨rfl, rfl⟩
  | .cons v tl, h => by
    have h1 : noDecimal v = true ∧ noDecimalArr tl = true := by
      simpa [noDecimalArr, Bool.and_eq_true] using h
    have hv := convertOkVal v h1.1
    have ht := convertOkArr tl h1.2
    simp [convertArr, noFloatArr, forgetDecimalArr, hv.1, hv.2, ht.1, ht.2]
theorem convertOkObj : ∀ (o : JsonObj), noDecimalObj o = true →
    noFloatObj (convertObj o) = true ∧ forgetDecimalObj (convertObj o) = o
  | .nil, _ => ⟨rfl, rfl⟩
  | .cons k v tl, h => by
    have h1 : noDecimal v = true ∧ noDecimalObj tl = true := by
      simpa [noDecimalObj, Bool.and_eq_true] using h
    have hv := convertOkVal v h1.1
    have ht := convertOkObj tl h1.2
    simp [convertObj, noFloatObj, forgetDecimalObj, hv.1, hv.2, ht.1, ht.2]
end

lemma batch_write_items_run {α : Type} (items : List α) (behav : Nat → Nat → AttemptBehavior)
    (hne : batchesOf items ≠ []) :
    batch_write_items items behav none =
      ((((batchesOf items).enum.map (fun jb => batchResult (behav jb.1) jb.2)).map
          Prod.fst).sum,
       (((batchesOf items).enum.map (fun jb => batchResult (behav jb.1) jb.2)).map
          Prod.snd).sum) := by
  have hlen : ¬((batchesOf items).length = 0) := by
    simpa [List.length_eq_zero] using hne
  simp [batch_write_items, hlen]

lemma loadAndWrite_isRet (env : PopulateEnv) (h3 : env.load ≠ LoadOutcome.raisedOpen) :
    isRet (loadAndWrite env) = true := by
  unfold loadAndWrite
  cases hl : env.load with
  | raisedOpen => exact absurd hl h3
  | failedLoad => rfl
  | notAList => rfl
  | listOf n =>
    cases n with
    | zero => rfl
    | succ m => by_cases hbr : env.batchRaise <;> simp [hbr, isRet]

/-! ## Claim theorems -/

/-- Claim C1, counterexample: the claim states that for every non-empty record
sequence of length `N` the tally satisfies `success_count + error_count = N`,
with items of a batch that exhausted its throttling retries counted in
`error_count`.  For the single-record sequence `[0]` under a store that
raises the throttling signal before the first item on every attempt,
`batch_write_items` returns `(0, 0)`: the batch's retries are exhausted, the
last attempt's partial counters are empty, and the item appears in neither
count, so `0 + 0 ≠ 1`. -/
theorem c1_tally_counterexample :
    ¬ ((batch_write_items [0] (fun _ _ => AttemptBehavior.throttle []) none).1
        + (batch_write_items [0] (fun _ _ => AttemptBehavior.throttle []) none).2
        = [0].length) := by
  decide

/-- Claim C1, amended: `success_count + error_count = N` holds whenever the
dispatch machinery does not fail and every batch's reported outcome comes
from a bulk-write attempt that ran to completion (each item counted exactly
once as success or error).  A batch abandoned after exhausting its
throttling retries instead reports only the partial counters of its final
attempt, so items the final attempt never counted are dropped from the
tally, and a batch aborted by a non-throttling bulk failure can overcount. -/
theorem c1_tally_amended {α : Type} (items : List α) (behav : Nat → Nat → AttemptBehavior)
    (hok : ∀ jb ∈ (batchesOf items).enum, completesFrom (behav jb.1) 0 5 = true)
    (hwf : ∀ jb ∈ (batchesOf items).enum, ∀ i rs,
      behav jb.1 i = AttemptBehavior.complete rs → rs.length = jb.2.length) :
    (batch_write_items items behav none).1 + (batch_write_items items behav none).2
      = items.length := by
  rcases items with - | ⟨x, xs⟩
  · simp [batch_write_items, batchesOf_nil]
  · have hne : batchesOf (x :: xs) ≠ [] := by
      rw [ne_eq, batchesOf_eq_nil_iff]
      simp
    rw [batch_write_items_run (x :: xs) behav hne]
    rw [sum_map_add, List.map_map]
    have hmap : ((batchesOf (x :: xs)).enum.map
          ((fun (q : Nat × Nat) => q.1 + q.2) ∘ fun jb => batchResult (behav jb.1) jb.2))
        = ((batchesOf (x :: xs)).enum.map (fun jb => jb.2.length)) := by
      apply List.map_congr_left
      intro jb hjb
      exact batchResult_sum_eq (behav jb.1) jb.2 (hok jb hjb) (hwf jb hjb)
    rw [hmap, sum_batch_lengths]

/-- Claim C1, witness for the amended theorem: three records in one batch
whose only attempt completes with outcomes success, error, success; the
tally sums to 3. -/
theorem c1_tally_amended_witness :
    (batch_write_items [1, 2, 3]
        (fun _ _ => AttemptBehavior.complete [true, false, true]) none).1
      + (batch_write_items [1, 2, 3]
          (fun _ _ => AttemptBehavior.complete [true, false, true]) none).2
      = 3 := by
  refine c1_tally_amended [1, 2, 3] (fun _ _ => AttemptBehavior.complete [true, false, true])
    (by decide) ?_
  intro jb hjb i rs hrs
  cases hrs
  have he : (batchesOf [1, 2, 3]).enum = [(0, [1, 2, 3])] := by decide
  rw [he] at hjb
  simp at hjb
  subst hjb
  rfl

/-- Claim C2: a batch whose every bulk-write attempt raises the throttling
signal performs exactly `max_retries` bulk-write attempts (never more), is
then abandoned with its outcome reported as the final attempt's partial
counters, and — for the call site's retry ceiling of 5 and a sequence
forming one batch — that outcome is exactly what the engine's tally
receives.  ("Retried exactly `max_retries` times" is read as the code's
`for attempt in range(max_retries)` loop running all `max_retries`
iterations, matching "after the `max_retries`-th throttling failure it is
abandoned".) -/
theorem c2_retry_ceiling (behav : Nat → AttemptBehavior) (p : Nat → List Bool)
    (L maxRetries : Nat) (hmax : 1 ≤ maxRetries)
    (hb : ∀ i, behav i = AttemptBehavior.throttle (p i)) :
    attemptsOf behav maxRetries = maxRetries ∧
    process_batch_with_retry behav L maxRetries
      = some (countOk (p (maxRetries - 1)), countErr (p (maxRetries - 1))) ∧
    (∀ (items : List Nat), items ≠ [] → items.length ≤ 25 → maxRetries = 5 →
      batch_write_items items (fun _ => behav) none
        = (countOk (p 4), countErr (p 4))) := by
  obtain ⟨h1, h2⟩ := throttle_all_attempts behav p L hb maxRetries 0 hmax
  have hidx : 0 + maxRetries - 1 = maxRetries - 1 := by omega
  rw [hidx] at h2
  refine ⟨h1, h2, ?_⟩
  intro items hne hle hm5
  subst hm5
  have hbs : batchesOf items = [items] := batchesOf_small items hne hle
  have hbne : batchesOf items ≠ [] := by rw [hbs]; simp
  obtain ⟨-, h4⟩ := throttle_all_attempts behav p items.length hb 5 0 (by omega)
  have hbr : batchResult behav items = (countOk (p 4), countErr (p 4)) := by
    unfold batchResult
    rw [h4]
  rw [batch_write_items_run items (fun _ => behav) hbne, hbs]
  simp [hbr]

/-- Claim C2, witness: with every attempt throttling after one counted item
error, the retry ceiling 5 yields exactly 5 attempts, the final partial
counters `(0, 1)`, and a one-batch run tallies `(0, 1)`. -/
theorem c2_retry_ceiling_witness :
    attemptsOf (fun _ => AttemptBehavior.throttle [false]) 5 = 5 ∧
    process_batch_with_retry (fun _ => AttemptBehavior.throttle [false]) 1 5
      = some (0, 1) ∧
    batch_write_items [7] (fun _ _ => AttemptBehavior.throttle [false]) none = (0, 1) := by
  obtain ⟨h1, h2, h3⟩ := c2_retry_ceiling (fun _ => AttemptBehavior.throttle [false])
    (fun _ => [false]) 1 5 (by omega) (fun i => rfl)
  have e1 : countOk [false] = 0 := by decide
  have e2 : countErr [false] = 1 := by decide
  rw [e1, e2] at h2
  have h4 := h3 [7] (by simp) (by simp) rfl
  rw [e1, e2] at h4
  exact ⟨h1, h2, h4⟩

/-- Claim C3: when attempt `a` of a batch raises the throttling signal and
retries remain, the attempt's counters are discarded — the loop's result is
exactly that of restarting the whole batch at attempt `a + 1` with fresh
counters, independently of the partial counts `p` — after one backoff sleep
of `2 ^ a + jitter(a)` seconds (attempt indices starting at 0); and with
every jitter drawn from `[0, 1)`, the successive delays of one call are
non-decreasing (pointwise, hence also in expectation). -/
theorem c3_backoff_reset (behav : Nat → AttemptBehavior) (jit : Nat → ℚ) (p : List Bool)
    (L a r : Nat) (hb : behav a = AttemptBehavior.throttle p)
    (hj : ∀ i, 0 ≤ jit i ∧ jit i < 1) :
    processFrom behav L a (r + 2) = processFrom behav L (a + 1) (r + 1) ∧
    delaysFrom behav jit a (r + 2)
      = (2 ^ a + jit a) :: delaysFrom behav jit (a + 1) (r + 1) ∧
    List.Chain' (fun x y : ℚ => x ≤ y) (retryDelays behav jit (r + 2)) := by
  refine ⟨by simp [processFrom, hb], by simp [delaysFrom, hb], ?_⟩
  exact (delaysFrom_chain behav jit hj (r + 2) 0).1

/-- Claim C3, witness: a batch of one item throttling on attempt 0 with
jitter 1/2: the result equals the restart at attempt 1, the recorded delay
is `2 ^ 0 + 1/2`, and the delay list is a non-decreasing chain. -/
theorem c3_backoff_reset_witness :
    processFrom (fun _ => AttemptBehavior.throttle [false]) 1 0 2
      = processFrom (fun _ => AttemptBehavior.throttle [false]) 1 1 1 ∧
    delaysFrom (fun _ => AttemptBehavior.throttle [false]) (fun _ => (1 : ℚ) / 2) 0 2
      = (2 ^ 0 + (1 : ℚ) / 2)
          :: delaysFrom (fun _ => AttemptBehavior.throttle [false]) (fun _ => (1 : ℚ) / 2) 1 1 ∧
    List.Chain' (fun x y : ℚ => x ≤ y)
      (retryDelays (fun _ => AttemptBehavior.throttle [false]) (fun _ => (1 : ℚ) / 2) 2) :=
  c3_backoff_reset (fun _ => AttemptBehavior.throttle [false]) (fun _ => (1 : ℚ) / 2)
    [false] 1 0 0 rfl (by intro i; norm_num)

/-- Claim C4, counterexample: the claim states a non-throttling bulk-level
failure yields an error count equal to the batch length.  For a batch of
length 1 whose attempt counts one item-level error before the bulk failure,
the code executes `local_errors += len(batch); return 0, local_errors`,
reporting `(0, 2)`: two errors for a one-item batch. -/
theorem c4_nonthrottle_counterexample :
    process_batch_with_retry (fun _ => AttemptBehavior.bulkFail [false]) 1 5
      = some (0, 2) ∧ (2 : Nat) ≠ 1 := by
  exact ⟨by decide, by decide⟩

/-- Claim C4, amended: a non-throttling bulk-level failure aborts the batch
immediately (exactly one bulk-write attempt is made from that point, no
retry) and its outcome is success 0 and error count equal to the batch
length **plus** the item-level errors already counted during that attempt. -/
theorem c4_nonthrottle_amended (behav : Nat → AttemptBehavior) (p : List Bool) (L a r : Nat)
    (hb : behav a = AttemptBehavior.bulkFail p) :
    processFrom behav L a (r + 1) = some (0, countErr p + L) ∧
    attemptsFrom behav a (r + 1) = 1 :=
  ⟨by simp [processFrom, hb], by simp [attemptsFrom, hb]⟩

/-- Claim C4, witness for the amended theorem: the counterexample's input,
through the amended statement: one counted item error plus batch length 1
gives `(0, 2)`, in a single attempt. -/
theorem c4_nonthrottle_amended_witness :
    processFrom (fun _ => AttemptBehavior.bulkFail [false]) 1 0 5
      = some (0, countErr [false] + 1) ∧
    attemptsFrom (fun _ => AttemptBehavior.bulkFail [false]) 0 5 = 1 :=
  c4_nonthrottle_amended (fun _ => AttemptBehavior.bulkFail [false]) [false] 1 0 4 rfl

/-- Claim C5, counterexample: the claim states no fault below the per-table
pipeline escapes `populate_table` as an exception.  But the
`table_exists` call at line 375 sits outside every `try` in
`populate_table`, and `table_exists` re-raises any `ClientError` whose code
is not `ResourceNotFoundException`; a describe-table fault such as
`AccessDeniedException` therefore escapes to the run coordinator instead of
being converted into a Boolean. -/
theorem c5_propagation_counterexample :
    populate_table
        ⟨DescribeOutcome.clientError "AccessDeniedException", CreateOutcome.created, none,
          true, LoadOutcome.listOf 1, (1, 0), false⟩ none
      = PyResult.raised "AccessDeniedException" := by
  decide

/-- Claim C5, amended: `populate_table` returns a Boolean — converting every
fault into a count or a Boolean — provided the existence check does not
raise (the describe call succeeds or fails with `ResourceNotFoundException`),
table creation raises no non-`ClientError` exception, and the input file
read raises only the handled exception classes (missing file, JSON decode
error); faults of the purge probe, the purge itself, and the batch write are
always converted. -/
theorem c5_propagation_amended (env : PopulateEnv) (action : Option GlobalAction)
    (h1 : isRet (table_exists env.describe) = true)
    (h2 : env.create ≠ CreateOutcome.raisedCreate)
    (h3 : env.load ≠ LoadOutcome.raisedOpen) :
    isRet (populate_table env action) = true := by
  cases hte : table_exists env.describe with
  | raised code =>
    rw [hte] at h1
    simp [isRet] at h1
  | ret b =>
    cases b with
    | false =>
      cases hc : env.create with
      | raisedCreate => exact absurd hc h2
      | failedCreate => simp [populate_table, hte, hc, isRet]
      | created =>
        simp only [populate_table, hte, hc]
        exact loadAndWrite_isRet env h3
    | true =>
      cases action with
      | none =>
        simp only [populate_table, hte]
        exact loadAndWrite_isRet env h3
      | some ga =>
        cases ga with
        | append =>
          simp only [populate_table, hte]
          exact loadAndWrite_isRet env h3
        | replace =>
          cases hsc : env.scanCheck with
          | none =>
            simp only [populate_table, hte, hsc]
            exact loadAndWrite_isRet env h3
          | some n =>
            by_cases hn : 0 < n
            · by_cases hdel : env.deleteOk
              · simp only [populate_table, hte, hsc, hn, if_true, hdel]
                exact loadAndWrite_isRet env h3
              · simp [populate_table, hte, hsc, hn, hdel, isRet]
            · simp only [populate_table, hte, hsc, hn, if_false]
              exact loadAndWrite_isRet env h3

/-- Claim C5, witness for the amended theorem: a pipeline whose existence
check succeeds, whose load yields two records and whose batch write reports
no errors returns a Boolean. -/
theorem c5_propagation_amended_witness :
    isRet (populate_table
        ⟨DescribeOutcome.ok, CreateOutcome.created, none, true, LoadOutcome.listOf 2,
          (2, 0), false⟩ none) = true :=
  c5_propagation_amended
    ⟨DescribeOutcome.ok, CreateOutcome.created, none, true, LoadOutcome.listOf 2,
      (2, 0), false⟩ none (by decide) (by decide) (by decide)

/-- Claim C6: on an empty record sequence the batch write engine returns the
tally `(0, 0)` — a value, not an exception, and one `populate_table` treats
as full success — and the partition step produces no batches, so nothing is
dispatched to workers. -/
theorem c6_empty_noop (behav : Nat → Nat → AttemptBehavior) (dispatch : Option (Nat → Bool)) :
    batch_write_items ([] : List Nat) behav dispatch = (0, 0) ∧
    batchesOf ([] : List Nat) = [] :=
  ⟨rfl, rfl⟩

/-- Claim C7: for every item sequence of length `N` and batch size 25, the
partition step produces exactly `⌈N / 25⌉` batches; concatenating them in
order yields the input sequence (so batches preserve the original item
order); and every batch except possibly the last has exactly 25 items. -/
theorem c7_batching (l : List Nat) :
    (batchesOf l).length = (l.length + 25 - 1) / 25 ∧
    (batchesOf l).flatten = l ∧
    ((batchesOf l).dropLast.all fun b => b.length == 25) = true := by
  refine ⟨?_, flatten_batchesOf l, batchesOf_dropLast_all l⟩
  rw [length_batchesOf]
  omega

/-- Claim C8: under the replace policy the purge collects the items of every
scan page (the pagination loop runs until the last page, after which no
continuation token remains), deletes each discovered item under the key
built from the descriptor's partition key and, when declared, its sort key,
and returns success; and a table whose scan reports
`ResourceNotFoundException` is treated as already empty: success with no
deletes. -/
theorem c8_purge (ps : List (List StoreItem)) (pkName : String) (skName : Option String)
    (h : ∀ it ∈ ps.flatten, (keyOf pkName skName it).isSome = true) :
    delete_all_items_from_table (ScanOutcome.pages ps) pkName skName
      = (true, ps.flatten.filterMap (keyOf pkName skName)) ∧
    delete_all_items_from_table ScanOutcome.resourceNotFound pkName skName
      = (true, []) := by
  refine ⟨?_, rfl⟩
  by_cases he : ps.flatten.isEmpty = true
  · have hnil : ps.flatten = [] := by simpa using he
    simp [delete_all_items_from_table, he, hnil]
  · simp only [delete_all_items_from_table, he, if_false]
    rw [buildKeys_eq pkName skName ps.flatten h]
    rfl

/-- Claim C8, witness: two pages of one item each, partition key only: both
items are deleted by their partition-key value and the purge succeeds; a
missing table purges to success with no deletes. -/
theorem c8_purge_witness :
    delete_all_items_from_table
        (ScanOutcome.pages [[[("pk", "a")]], [[("pk", "b")]]]) "pk" none
      = (true, [[("pk", "a")], [("pk", "b")]]) ∧
    delete_all_items_from_table ScanOutcome.resourceNotFound "pk" none = (true, []) := by
  obtain ⟨h1, h2⟩ := c8_purge [[[("pk", "a")]], [[("pk", "b")]]] "pk" none (by decide)
  exact ⟨h1.trans (by decide), h2⟩

/-- Claim C9: for every decoded JSON value (free of `Decimal` nodes, as
`json.load` output is), the re-encoding replaces every float `x` by
`Decimal(str(x))` — no float remains in the output — and changes nothing
else: mapping each `Decimal` node back to the float it encodes recovers the
input exactly, so strings, integers, booleans, nulls, dictionary keys and
the nesting structure of lists and mappings are unchanged. -/
theorem c9_float_reencoding (v : JsonVal) (hv : noDecimal v = true) :
    noFloat (convert_float_to_decimal v) = true ∧
    forgetDecimal (convert_float_to_decimal v) = v :=
  convertOkVal v hv

/-- Nested sample value: `{"a": 1.5, "b": [2, null, "s", true]}` with the
float spelled by its `str` form. -/
def sampleJson : JsonVal :=
  JsonVal.obj (JsonObj.cons "a" (JsonVal.floatV "1.5")
    (JsonObj.cons "b"
      (JsonVal.arr (JsonArr.cons (JsonVal.intV 2)
        (JsonArr.cons JsonVal.null
          (JsonArr.cons (JsonVal.str "s")
            (JsonArr.cons (JsonVal.boolV true) JsonArr.nil)))))
      JsonObj.nil))

/-- Claim C9, witness: the conversion of the sample value contains no float
and maps back to the sample value. -/
theorem c9_float_reencoding_witness :
    noFloat (convert_float_to_decimal sampleJson) = true ∧
    forgetDecimal (convert_float_to_decimal sampleJson) = sampleJson :=
  c9_float_reencoding sampleJson (by decide)

/-- Claim C10: on every return path of `batch_write_items` — the
empty-input path, the normal aggregation path and the dispatch-failure
path — the success count is at most the total item count `N` (and both
counts are natural numbers, hence non-negative), because each batch's
reported success never exceeds that batch's length; in particular the
dispatch-failure path's error count `total_items - success_count` never
truncates. -/
theorem c10_success_bound {α : Type} (items : List α) (behav : Nat → Nat → AttemptBehavior)
    (dispatch : Option (Nat → Bool))
    (hwf : ∀ jb ∈ (batchesOf items).enum, ∀ i, WfAttempt jb.2.length (behav jb.1 i)) :
    (batch_write_items items behav dispatch).1 ≤ items.length := by
  have hpt : ∀ jb ∈ (batchesOf items).enum,
      (batchResult (behav jb.1) jb.2).1 ≤ jb.2.length := by
    intro jb hjb
    exact batchResult_fst_le (behav jb.1) jb.2 (hwf jb hjb)
  by_cases hlen : (batchesOf items).length = 0
  · simp [batch_write_items, hlen]
  · cases dispatch with
    | none =>
      simp only [batch_write_items, hlen, if_false]
      rw [List.map_map]
      calc ((batchesOf items).enum.map
              (Prod.fst ∘ fun jb => batchResult (behav jb.1) jb.2)).sum
          ≤ ((batchesOf items).enum.map (fun jb => jb.2.length)).sum :=
            List.sum_le_sum hpt
        _ = items.length := sum_batch_lengths items
    | some done =>
      simp only [batch_write_items, hlen, if_false]
      calc (((batchesOf items).enum.filter (fun jb => done jb.1)).map
              (fun jb => (batchResult (behav jb.1) jb.2).1)).sum
          ≤ ((batchesOf items).enum.map
              (fun jb => (batchResult (behav jb.1) jb.2).1)).sum :=
            sum_filter_le _ _ _
        _ ≤ ((batchesOf items).enum.map (fun jb => jb.2.length)).sum :=
            List.sum_le_sum hpt
        _ = items.length := sum_batch_lengths items

/-- Claim C10, witness: a single one-item batch whose attempt completes with
one success reports a success count of at most 1. -/
theorem c10_success_bound_witness :
    (batch_write_items [7] (fun _ _ => AttemptBehavior.complete [true]) none).1 ≤ 1 := by
  refine c10_success_bound [7] (fun _ _ => AttemptBehavior.complete [true]) none ?_
  intro jb hjb i
  have he : (batchesOf [7]).enum = [(0, [7])] := by decide
  rw [he] at hjb
  simp at hjb
  subst hjb
  exact rfl

example : batchesOf (List.range 30) = [List.range 30 |>.take 25, List.range 30 |>.drop 25] := by
  decide

example : process_batch_with_retry (fun _ => .throttle []) 1 5 = some (0, 0) := by decide

example :
    batch_write_items [0] (fun _ _ => AttemptBehavior.throttle []) none = (0, 0) := by decide

example :
    batch_write_items ([] : List Nat) (fun _ _ => AttemptBehavior.crash) none = (0, 0) := by
  decide

end DataPoblator
